import Mathlib

/-!
Verification of the VehicleStudio image-composition pipeline
(alpha-bounds analysis, photo-mode classification, shadow conditioning,
and the placement/scale solver of `compositeImage`).

The source is TypeScript operating on JavaScript numbers and raw RGBA
byte buffers.  The embedding uses exact rational arithmetic (`ℚ`) for
the geometric solver and natural numbers for alpha bytes.  JavaScript's
`Math.round` is `fun q => ⌊q + 1/2⌋` (round half toward positive
infinity), which agrees with the IEEE-double computation on every input
considered in this development (none of the concrete inputs used below
sits at a floating-point tie).  JavaScript division by zero yields
Infinity; the solver theorems therefore carry positivity hypotheses on
the denominators that occur (`paddedWidth`, `paddedHeight`,
`solidBottom`), all of which are positive on every real pipeline input.
-/

/-- JavaScript's `Math.round`: round half up. -/
def jround (q : ℚ) : ℤ := ⌊q + 1/2⌋

/-- `Math.round` with the result viewed again as a rational
(JS numbers stay in one numeric type). -/
def jroundQ (q : ℚ) : ℚ := (jround q : ℚ)

theorem jround_le (q : ℚ) : (jround q : ℚ) ≤ q + 1/2 := by
  exact_mod_cast Int.floor_le (q + 1/2)

theorem lt_jround (q : ℚ) : q - 1/2 < (jround q : ℚ) := by
  have h := Int.lt_floor_add_one (q + 1/2)
  push_cast [jround] at h ⊢
  linarith

theorem abs_jroundQ_sub_le (q : ℚ) : |jroundQ q - q| ≤ 1/2 := by
  have h1 := jround_le q
  have h2 := lt_jround q
  rw [abs_le]
  constructor <;> [skip; skip] <;> simp [jroundQ] at * <;> linarith

theorem jroundQ_nonneg {q : ℚ} (h : 0 ≤ q) : 0 ≤ jroundQ q := by
  have h0 : (0 : ℤ) ≤ jround q := Int.le_floor.mpr (by push_cast; linarith)
  simp only [jroundQ]
  exact_mod_cast h0

/-! ## Data model (`src/unnamed/part_006`, lines 349–371) -/

/-- `type PhotoMode = 'exterior' | 'interior'`. -/
inductive PhotoMode where
  | exterior : PhotoMode
  | interior : PhotoMode
deriving DecidableEq, Repr

/-- `interface Bounds` — pixel coordinates are JS numbers holding
integers, embedded as `ℤ`. -/
structure Bounds where
  minX : ℤ
  maxX : ℤ
  minY : ℤ
  maxY : ℤ
  valid : Bool
deriving DecidableEq, Repr

/-- `interface SubjectAnalysis`. -/
structure SubjectAnalysis where
  bufferWidth : ℕ
  bufferHeight : ℕ
  hasAlpha : Bool
  soft : Bounds
  solid : Bounds
  softCoverage : ℚ
  solidCoverage : ℚ
  softWidthPct : ℚ
  softHeightPct : ℚ
  bottomTouchRatio : ℚ
  opaqueRatio : ℚ
deriving DecidableEq, Repr

/-- `function clamp(value, min, max)` (line 373). -/
def clampQ (value lo hi : ℚ) : ℚ := max lo (min value hi)

/-! ## Photo-mode classifier (`classifyPhotoMode`, lines 491–525) -/

/-- `interface ClassificationResult`. -/
structure ClassificationResult where
  mode : PhotoMode
  interiorHint : Bool
deriving DecidableEq, Repr

/-- `function classifyPhotoMode(analysis)` (lines 491–525), embedded
branch for branch.  JS boolean expressions become `decide`d props. -/
def classifyPhotoMode (analysis : SubjectAnalysis) : ClassificationResult :=
  let hasInteriorCharacteristics : Bool :=
    decide ((0.85 : ℚ) < analysis.opaqueRatio ∧ (0.85 : ℚ) < analysis.softCoverage)
  let fullyOpaque : Bool := decide ((0.995 : ℚ) < analysis.opaqueRatio)
  let almostFullFrame : Bool :=
    decide ((0.96 : ℚ) < analysis.softWidthPct ∧ (0.96 : ℚ) < analysis.softHeightPct)
  let extremelyCovered : Bool := decide ((0.99 : ℚ) < analysis.softCoverage)
  if analysis.hasAlpha = false then
    { mode := PhotoMode.interior, interiorHint := true }
  else if analysis.soft.valid = false ∨ analysis.solid.valid = false then
    { mode := PhotoMode.interior, interiorHint := true }
  else if fullyOpaque ∧ almostFullFrame ∧ extremelyCovered then
    { mode := PhotoMode.interior, interiorHint := true }
  else
    { mode := PhotoMode.exterior, interiorHint := hasInteriorCharacteristics }

/-- C3: the classifier evaluates its four rules in order, first match
winning: (1) no alpha → interior; (2) invalid bounds → interior;
(3) opaqueRatio > 0.995 ∧ softWidthPct > 0.96 ∧ softHeightPct > 0.96 ∧
softCoverage > 0.99 → interior; (4) otherwise exterior with
interiorHint ↔ (opaqueRatio > 0.85 ∧ softCoverage > 0.85). -/
theorem classifyPhotoMode_rule_order (a : SubjectAnalysis) :
    (a.hasAlpha = false →
      classifyPhotoMode a = ⟨PhotoMode.interior, true⟩) ∧
    (a.hasAlpha = true → (a.soft.valid = false ∨ a.solid.valid = false) →
      classifyPhotoMode a = ⟨PhotoMode.interior, true⟩) ∧
    (a.hasAlpha = true → a.soft.valid = true → a.solid.valid = true →
      ((0.995 : ℚ) < a.opaqueRatio ∧ (0.96 : ℚ) < a.softWidthPct ∧
        (0.96 : ℚ) < a.softHeightPct ∧ (0.99 : ℚ) < a.softCoverage) →
      classifyPhotoMode a = ⟨PhotoMode.interior, true⟩) ∧
    (a.hasAlpha = true → a.soft.valid = true → a.solid.valid = true →
      ¬((0.995 : ℚ) < a.opaqueRatio ∧ (0.96 : ℚ) < a.softWidthPct ∧
        (0.96 : ℚ) < a.softHeightPct ∧ (0.99 : ℚ) < a.softCoverage) →
      (classifyPhotoMode a).mode = PhotoMode.exterior ∧
        ((classifyPhotoMode a).interiorHint = true ↔
          ((0.85 : ℚ) < a.opaqueRatio ∧ (0.85 : ℚ) < a.softCoverage))) := by
  refine ⟨?_, ?_, ?_, ?_⟩
  · intro h
    simp [classifyPhotoMode, h]
  · intro h hv
    simp [classifyPhotoMode, h, hv]
  · intro h hs hsol hcond
    simp [classifyPhotoMode, h, hs, hsol]
    tauto
  · intro h hs hsol hcond
    have hsplit : ¬((0.995 : ℚ) < a.opaqueRatio) ∨
        ¬((0.96 : ℚ) < a.softWidthPct ∧ (0.96 : ℚ) < a.softHeightPct) ∨
        ¬((0.99 : ℚ) < a.softCoverage) := by tauto
    rcases hsplit with h1 | h2 | h3
    · constructor <;> simp [classifyPhotoMode, h, hs, hsol, h1]
    · rw [Classical.not_and_iff_or_not_not] at h2
      rcases h2 with h2 | h2 <;>
        constructor <;> simp [classifyPhotoMode, h, hs, hsol, h2]
    · constructor <;> simp [classifyPhotoMode, h, hs, hsol, h3]

/-- Concrete analysis used to witness the classifier theorems:
an opaque full-frame cabin shot with no usable alpha. -/
def noAlphaAnalysis : SubjectAnalysis :=
  { bufferWidth := 2000, bufferHeight := 1500, hasAlpha := false
    soft := ⟨0, 1999, 0, 1499, false⟩, solid := ⟨0, 1999, 0, 1499, false⟩
    softCoverage := 1, solidCoverage := 1, softWidthPct := 1
    softHeightPct := 1, bottomTouchRatio := 1, opaqueRatio := 1 }

theorem classifyPhotoMode_rule_order_witness :
    classifyPhotoMode noAlphaAnalysis = ⟨PhotoMode.interior, true⟩ :=
  (classifyPhotoMode_rule_order noAlphaAnalysis).1 (by decide)

/-- C10: every interior classification carries `interiorHint = true`;
`interiorHint = false` only ever occurs together with exterior mode. -/
theorem interior_implies_hint (a : SubjectAnalysis)
    (h : (classifyPhotoMode a).mode = PhotoMode.interior) :
    (classifyPhotoMode a).interiorHint = true := by
  revert h
  unfold classifyPhotoMode
  split_ifs <;> simp_all
  split_ifs <;> simp_all

theorem interior_implies_hint_witness :
    (classifyPhotoMode noAlphaAnalysis).interiorHint = true :=
  interior_implies_hint noAlphaAnalysis (by decide)

/-! ## Alpha bounds analyzer (`analyzeSubjectBounds`, lines 377–474) -/

/-- Decoded raw RGBA pixel data (the result of
`sharp(...).ensureAlpha().raw()`): `data` maps a byte index to its
value; the alpha byte of pixel (x, y) sits at index
`(y * width + x) * channels + 3`. -/
structure PixelData where
  width : ℕ
  height : ℕ
  channels : ℕ
  data : ℕ → ℕ

/-- An input buffer as the analyzer sees it: the metadata probe (width
and height report 0 when absent, mirroring JS falsiness; the `hasAlpha`
flag), and the raw pixel decode, which either succeeds (`some`) or
throws (`none`), triggering the `catch` branch. -/
structure RawImage where
  metaWidth : ℕ
  metaHeight : ℕ
  metaHasAlpha : Bool
  decoded : Option PixelData

/-- `meta.width || 2000` — JS `||` substitutes the default when the
value is missing (here encoded as 0) or 0. -/
def orDefault (n d : ℕ) : ℕ := if n = 0 then d else n

/-- Initial scan accumulator
`{minX: width, maxX: 0, minY: height, maxY: 0, valid: false}`. -/
def initBounds (w h : ℕ) : Bounds := ⟨w, 0, h, 0, false⟩

/-- The four `if`s expanding a bounding box at a qualifying pixel,
together with `valid = true`. -/
def expandBounds (b : Bounds) (x y : ℕ) : Bounds :=
  ⟨min b.minX x, max b.maxX x, min b.minY y, max b.maxY y, true⟩

/-- Mutable state of the pixel scan loop in `analyzeSubjectBounds`;
`bottomCols` models the `bottomSoftColumns` flag array (a column is a
member iff its flag is 1). -/
structure ScanState where
  soft : Bounds
  solid : Bounds
  softPixels : ℕ
  solidPixels : ℕ
  opaquePixels : ℕ
  bottomCols : Finset ℕ

/-- One iteration of the nested pixel loop (lines 407–432): the
`alpha > 20` block, then the `alpha > 200` block, then the
`alpha > 250` count. -/
def scanStep (alpha : ℕ → ℕ → ℕ) (bandStart : ℤ) (s : ScanState) (p : ℕ × ℕ) :
    ScanState :=
  let a := alpha p.1 p.2
  let s1 := if 20 < a then
      { s with softPixels := s.softPixels + 1
               soft := expandBounds s.soft p.1 p.2
               bottomCols := if bandStart ≤ (p.2 : ℤ) then insert p.1 s.bottomCols
                 else s.bottomCols }
    else s
  let s2 := if 200 < a then
      { s1 with solidPixels := s1.solidPixels + 1
                solid := expandBounds s1.solid p.1 p.2 }
    else s1
  if 250 < a then { s2 with opaquePixels := s2.opaquePixels + 1 } else s2

/-- Row-major traversal order of the nested loops: `for y … for x …`. -/
def pixelList (w h : ℕ) : List (ℕ × ℕ) :=
  (List.range h).flatMap fun y => (List.range w).map fun x => (x, y)

/-- `function finalizeBounds(bounds, width, height)` (lines 377–382). -/
def finalizeBounds (b : Bounds) (w h : ℕ) : Bounds :=
  if b.valid = false then ⟨0, (w : ℤ) - 1, 0, (h : ℤ) - 1, false⟩ else b

/-- Alpha byte of pixel (x, y). -/
def alphaAt (d : PixelData) (x y : ℕ) : ℕ :=
  d.data ((y * d.width + x) * d.channels + 3)

/-- `async function analyzeSubjectBounds(imageBuffer)` (lines 384–474).
The `try` branch scans every pixel; the `catch` branch returns the
conservative fallback.  (When `width * height = 0` the JS coverage
ratios are NaN; the embedding's division by zero yields 0 instead — no
claim concerns empty buffers.) -/
def analyzeSubjectBounds (img : RawImage) : SubjectAnalysis :=
  let bufferWidth := orDefault img.metaWidth 2000
  let bufferHeight := orDefault img.metaHeight 1500
  let hasAlpha := img.metaHasAlpha
  match img.decoded with
  | some d =>
    let w := d.width
    let h := d.height
    let totalPixels := w * h
    let bottomBandStart : ℤ := max 0 ((h : ℤ) - jround ((h : ℚ) * 0.02))
    let s := (pixelList w h).foldl (scanStep (alphaAt d) bottomBandStart)
      ⟨initBounds w h, initBounds w h, 0, 0, 0, ∅⟩
    let soft := finalizeBounds s.soft w h
    let solid := finalizeBounds s.solid w h
    let softWidth : ℚ := ((soft.maxX - soft.minX + 1 : ℤ) : ℚ)
    let softHeight : ℚ := ((soft.maxY - soft.minY + 1 : ℤ) : ℚ)
    { bufferWidth := w
      bufferHeight := h
      hasAlpha := hasAlpha
      soft := soft
      solid := solid
      softCoverage := (s.softPixels : ℚ) / totalPixels
      solidCoverage := (s.solidPixels : ℚ) / totalPixels
      softWidthPct := softWidth / w
      softHeightPct := softHeight / h
      bottomTouchRatio := if 0 < w then (s.bottomCols.card : ℚ) / w else 0
      opaqueRatio := (s.opaquePixels : ℚ) / totalPixels }
  | none =>
    { bufferWidth := bufferWidth
      bufferHeight := bufferHeight
      hasAlpha := hasAlpha
      soft := ⟨0, (bufferWidth : ℤ) - 1, 0, (bufferHeight : ℤ) - 1, false⟩
      solid := ⟨0, (bufferWidth : ℤ) - 1, 0, (bufferHeight : ℤ) - 1, false⟩
      softCoverage := 1
      solidCoverage := 1
      softWidthPct := 1
      softHeightPct := 1
      bottomTouchRatio := 1
      opaqueRatio := 1 }

/-- A buffer whose metadata parses (and reports an alpha channel) but
whose raw pixel decode fails — e.g. a PNG with an alpha channel
declared in the header and a corrupt IDAT stream. -/
def undecodableCutout : RawImage :=
  { metaWidth := 1000, metaHeight := 800, metaHasAlpha := true, decoded := none }

/-- C4 counterexample: the claim says the decode-failure fallback has
`hasAlpha = false`, but the catch branch returns the metadata-reported
flag unchanged; on a buffer whose metadata reports alpha, the fallback
has `hasAlpha = true`. -/
theorem analyzer_fallback_hasAlpha_cex :
    undecodableCutout.decoded = none ∧
    (analyzeSubjectBounds undecodableCutout).hasAlpha = true := by
  exact ⟨rfl, rfl⟩

/-- C4 (amended): on every decode failure, `analyzeSubjectBounds`
returns (rather than throws) the conservative fallback — both boxes
invalid but spanning the full metadata frame, every coverage ratio
equal to 1, and `hasAlpha` equal to the metadata-reported flag (not
necessarily `false`). -/
theorem analyzer_fallback (img : RawImage) (h : img.decoded = none) :
    analyzeSubjectBounds img =
      { bufferWidth := orDefault img.metaWidth 2000
        bufferHeight := orDefault img.metaHeight 1500
        hasAlpha := img.metaHasAlpha
        soft := ⟨0, (orDefault img.metaWidth 2000 : ℤ) - 1, 0,
          (orDefault img.metaHeight 1500 : ℤ) - 1, false⟩
        solid := ⟨0, (orDefault img.metaWidth 2000 : ℤ) - 1, 0,
          (orDefault img.metaHeight 1500 : ℤ) - 1, false⟩
        softCoverage := 1, solidCoverage := 1, softWidthPct := 1
        softHeightPct := 1, bottomTouchRatio := 1, opaqueRatio := 1 } := by
  unfold analyzeSubjectBounds
  rw [h]

theorem analyzer_fallback_witness :
    analyzeSubjectBounds undecodableCutout =
      { bufferWidth := 1000, bufferHeight := 800, hasAlpha := true
        soft := ⟨0, 999, 0, 799, false⟩, solid := ⟨0, 999, 0, 799, false⟩
        softCoverage := 1, solidCoverage := 1, softWidthPct := 1
        softHeightPct := 1, bottomTouchRatio := 1, opaqueRatio := 1 } := by
  rw [analyzer_fallback undecodableCutout rfl]
  decide

/-! ### C8: ordering and containment invariants of the scanned boxes -/

/-- Invariant carried through the pixel scan: valid boxes are ordered,
a valid solid box lies inside the (then also valid) soft box, the soft
minima never exceed the frame dimensions, and an untouched solid box
still holds its initial value. -/
def ScanInv (w h : ℕ) (s : ScanState) : Prop :=
  (s.soft.valid = true → s.soft.minX ≤ s.soft.maxX ∧ s.soft.minY ≤ s.soft.maxY) ∧
  (s.solid.valid = true → s.solid.minX ≤ s.solid.maxX ∧ s.solid.minY ≤ s.solid.maxY) ∧
  (s.solid.valid = true → s.soft.valid = true) ∧
  (s.solid.valid = true →
    s.soft.minX ≤ s.solid.minX ∧ s.solid.maxX ≤ s.soft.maxX ∧
    s.soft.minY ≤ s.solid.minY ∧ s.solid.maxY ≤ s.soft.maxY) ∧
  (s.soft.minX ≤ (w : ℤ) ∧ s.soft.minY ≤ (h : ℤ)) ∧
  (s.solid.valid = false →
    s.solid.minX = (w : ℤ) ∧ s.solid.maxX = 0 ∧
    s.solid.minY = (h : ℤ) ∧ s.solid.maxY = 0)

theorem scanStep_inv (alpha : ℕ → ℕ → ℕ) (band : ℤ) (w h : ℕ)
    (s : ScanState) (p : ℕ × ℕ) (hs : ScanInv w h s) :
    ScanInv w h (scanStep alpha band s p) := by
  obtain ⟨i1, i2, i3, i4, i5, i6⟩ := hs
  unfold scanStep
  by_cases h200 : 200 < alpha p.1 p.2
  · have h20 : 20 < alpha p.1 p.2 := by omega
    rcases hv : s.solid.valid with hfalse | htrue
    · obtain ⟨e1, e2, e3, e4⟩ := i6 hv
      refine ⟨?_, ?_, ?_, ?_, ?_, ?_⟩ <;>
        simp only [if_pos h20, if_pos h200, expandBounds] <;>
        split_ifs <;> simp <;> omega
    · obtain ⟨c1, c2, c3, c4⟩ := i4 hv
      obtain ⟨o1, o2⟩ := i2 hv
      refine ⟨?_, ?_, ?_, ?_, ?_, ?_⟩ <;>
        simp only [if_pos h20, if_pos h200, expandBounds] <;>
        split_ifs <;> simp <;> omega
  · by_cases h20 : 20 < alpha p.1 p.2
    · have h250 : ¬(250 < alpha p.1 p.2) := by omega
      simp only [if_pos h20, if_neg h200, if_neg h250]
      obtain ⟨j1, j2⟩ := i5
      refine ⟨?_, ?_, ?_, ?_, ?_, ?_⟩ <;> dsimp only <;>
        (try simp only [expandBounds])
      · intro _
        constructor <;> omega
      · exact i2
      · intro _
        trivial
      · intro hv
        obtain ⟨c1, c2, c3, c4⟩ := i4 hv
        refine ⟨?_, ?_, ?_, ?_⟩ <;> omega
      · constructor <;> omega
      · exact i6
    · have h250 : ¬(250 < alpha p.1 p.2) := by omega
      simpa only [if_neg h20, if_neg h200, if_neg h250] using
        ⟨i1, i2, i3, i4, i5, i6⟩

theorem foldl_scanInv (alpha : ℕ → ℕ → ℕ) (band : ℤ) (w h : ℕ) :
    ∀ (l : List (ℕ × ℕ)) (s : ScanState), ScanInv w h s →
      ScanInv w h (l.foldl (scanStep alpha band) s)
  | [], _, hs => hs
  | p :: l, s, hs =>
    foldl_scanInv alpha band w h l _ (scanStep_inv alpha band w h s p hs)

theorem initScan_inv (w h : ℕ) :
    ScanInv w h ⟨initBounds w h, initBounds w h, 0, 0, 0, ∅⟩ := by
  refine ⟨?_, ?_, ?_, ?_, ?_, ?_⟩ <;> simp [initBounds]

theorem finalizeBounds_of_valid {b : Bounds} {w h : ℕ}
    (hb : (finalizeBounds b w h).valid = true) :
    finalizeBounds b w h = b ∧ b.valid = true := by
  by_cases hc : b.valid = false
  · rw [finalizeBounds, if_pos hc] at hb
    simp at hb
  · have hbt : b.valid = true := by simpa using hc
    rw [finalizeBounds, if_neg hc]
    exact ⟨rfl, hbt⟩

/-- C8: for every input buffer, each valid box reported by
`analyzeSubjectBounds` is ordered (minX ≤ maxX, minY ≤ maxY), and
whenever both the soft and the solid bounds are valid the solid box is
contained in the soft box. -/
theorem analyzer_bounds_invariant (img : RawImage) :
    ((analyzeSubjectBounds img).soft.valid = true →
      (analyzeSubjectBounds img).soft.minX ≤ (analyzeSubjectBounds img).soft.maxX ∧
      (analyzeSubjectBounds img).soft.minY ≤ (analyzeSubjectBounds img).soft.maxY) ∧
    ((analyzeSubjectBounds img).solid.valid = true →
      (analyzeSubjectBounds img).solid.minX ≤ (analyzeSubjectBounds img).solid.maxX ∧
      (analyzeSubjectBounds img).solid.minY ≤ (analyzeSubjectBounds img).solid.maxY) ∧
    ((analyzeSubjectBounds img).soft.valid = true →
      (analyzeSubjectBounds img).solid.valid = true →
      (analyzeSubjectBounds img).soft.minX ≤ (analyzeSubjectBounds img).solid.minX ∧
      (analyzeSubjectBounds img).solid.maxX ≤ (analyzeSubjectBounds img).soft.maxX ∧
      (analyzeSubjectBounds img).soft.minY ≤ (analyzeSubjectBounds img).solid.minY ∧
      (analyzeSubjectBounds img).solid.maxY ≤ (analyzeSubjectBounds img).soft.maxY) := by
  cases hdec : img.decoded with
  | none =>
    rw [analyzer_fallback img hdec]
    refine ⟨?_, ?_, ?_⟩ <;> simp
  | some d =>
    have hfold := foldl_scanInv (alphaAt d)
      (max 0 ((d.height : ℤ) - jround ((d.height : ℚ) * 0.02))) d.width d.height
      (pixelList d.width d.height)
      ⟨initBounds d.width d.height, initBounds d.width d.height, 0, 0, 0, ∅⟩
      (initScan_inv d.width d.height)
    simp only [analyzeSubjectBounds]
    rw [hdec]
    dsimp only
    obtain ⟨i1, i2, i3, i4, _, _⟩ := hfold
    refine ⟨?_, ?_, ?_⟩
    · intro hv
      obtain ⟨heq, hbv⟩ := finalizeBounds_of_valid hv
      rw [heq]
      exact i1 hbv
    · intro hv
      obtain ⟨heq, hbv⟩ := finalizeBounds_of_valid hv
      rw [heq]
      exact i2 hbv
    · intro hsoftv hsolidv
      obtain ⟨heqsoft, hbsoft⟩ := finalizeBounds_of_valid hsoftv
      obtain ⟨heqsolid, hbsolid⟩ := finalizeBounds_of_valid hsolidv
      rw [heqsoft, heqsolid]
      exact i4 hbsolid

/-- A 2×2 RGBA buffer with a single fully opaque pixel at (0, 0). -/
def boundsWitnessImg : RawImage :=
  { metaWidth := 2, metaHeight := 2, metaHasAlpha := true
    decoded := some ⟨2, 2, 4, fun i => if i = 3 then 255 else 0⟩ }

theorem analyzer_bounds_invariant_witness :
    (analyzeSubjectBounds boundsWitnessImg).soft.minX ≤
      (analyzeSubjectBounds boundsWitnessImg).solid.minX ∧
    (analyzeSubjectBounds boundsWitnessImg).solid.maxX ≤
      (analyzeSubjectBounds boundsWitnessImg).soft.maxX ∧
    (analyzeSubjectBounds boundsWitnessImg).soft.minY ≤
      (analyzeSubjectBounds boundsWitnessImg).solid.minY ∧
    (analyzeSubjectBounds boundsWitnessImg).solid.maxY ≤
      (analyzeSubjectBounds boundsWitnessImg).soft.maxY :=
  (analyzer_bounds_invariant boundsWitnessImg).2.2 (by decide) (by decide)

/-! ## Shadow conditioning: intensity adjustment and edge softening
(`adjustShadowIntensity`, lines 572–596; `softenShadowEdges`,
lines 600–735).

Both functions only ever read and write the alpha channel when deciding
alpha values (the RGB bytes they copy or average never feed back into
any alpha computation), so the embedding tracks the alpha plane of the
buffer: `alpha x y` is the alpha byte of pixel (x, y). -/

/-- The alpha plane of an RGBA buffer. -/
structure AlphaImg where
  w : ℕ
  h : ℕ
  alpha : ℕ → ℕ → ℕ

/-- Per-pixel body of the loop in `adjustShadowIntensity`:
semi-transparent pixels (0 < alpha < 240) are scaled by
`intensity / 100`, others are untouched. -/
def adjustShadowAlpha (intensity : ℕ) (a : ℕ) : ℕ :=
  if 0 < a ∧ a < 240 then (jround ((a : ℚ) * ((intensity : ℚ) / 100))).toNat else a

/-- `async function adjustShadowIntensity(imageBuffer, intensity)`
(lines 572–596): at `intensity ≥ 100` the buffer is returned
unchanged. -/
def adjustShadowIntensity (img : AlphaImg) (intensity : ℕ) : AlphaImg :=
  if 100 ≤ intensity then img
  else { w := img.w, h := img.h
         alpha := fun x y => adjustShadowAlpha intensity (img.alpha x y) }

/-- C7: with intensity < 100, every pixel with 0 < alpha < 240 maps to
round(alpha × intensity/100), pixels with alpha ≥ 240 or alpha = 0 are
unchanged; intensity 100 is a no-op; and concretely intensity 50 maps
alpha 180 to 90 and alpha 255 to 255. -/
theorem adjustShadowIntensity_spec (img : AlphaImg) (intensity x y : ℕ)
    (hi : intensity < 100) :
    (0 < img.alpha x y → img.alpha x y < 240 →
      (adjustShadowIntensity img intensity).alpha x y =
        (jround ((img.alpha x y : ℚ) * intensity / 100)).toNat) ∧
    (240 ≤ img.alpha x y →
      (adjustShadowIntensity img intensity).alpha x y = img.alpha x y) ∧
    (img.alpha x y = 0 →
      (adjustShadowIntensity img intensity).alpha x y = img.alpha x y) ∧
    (adjustShadowIntensity img 100).alpha x y = img.alpha x y ∧
    adjustShadowAlpha 50 180 = 90 ∧
    adjustShadowAlpha 50 255 = 255 := by
  have hlt : ¬(100 ≤ intensity) := by omega
  refine ⟨?_, ?_, ?_, ?_, ?_, by norm_num [adjustShadowAlpha]⟩
  · intro h0 h240
    simp only [adjustShadowIntensity, if_neg hlt, adjustShadowAlpha,
      if_pos (And.intro h0 h240)]
    rw [mul_div_assoc]
  · intro h240
    have hno : ¬(0 < img.alpha x y ∧ img.alpha x y < 240) := by omega
    simp only [adjustShadowIntensity, if_neg hlt, adjustShadowAlpha, if_neg hno]
  · intro h0
    have hno : ¬(0 < img.alpha x y ∧ img.alpha x y < 240) := by omega
    simp only [adjustShadowIntensity, if_neg hlt, adjustShadowAlpha, if_neg hno]
  · simp [adjustShadowIntensity]
  · have h90 : jround ((180 : ℚ) * (50 / 100)) = 90 := by norm_num [jround]
    simp [adjustShadowAlpha, h90]

/-- A 1×1 buffer holding a single shadow pixel of alpha 180. -/
def shadowPixelImg : AlphaImg := ⟨1, 1, fun _ _ => 180⟩

theorem adjustShadowIntensity_spec_witness :
    (adjustShadowIntensity shadowPixelImg 50).alpha 0 0 = 90 := by
  have h := (adjustShadowIntensity_spec shadowPixelImg 50 0 0 (by decide)).1
    (by decide) (by decide)
  rw [h]
  norm_num [shadowPixelImg, jround]
  rfl

/-- Bottom-up column scan of step 1 of `softenShadowEdges`
(lines 618–635): starting at row `y` and walking upward, return the
first row whose alpha lies strictly between 5 and 200 together with
that alpha; stop without a result upon meeting alpha ≥ 230 (car body).
(At row 0 the body check is omitted — either way the scan ends.) -/
def findShadowEdge (f : ℕ → ℕ) : ℕ → Option (ℕ × ℕ)
  | 0 => if 5 < f 0 ∧ f 0 < 200 then some (0, f 0) else none
  | y + 1 =>
    if 5 < f (y + 1) ∧ f (y + 1) < 200 then some (y + 1, f (y + 1))
    else if 230 ≤ f (y + 1) then none
    else findShadowEdge f y

/-- `shadowBottomRow[x]` / `shadowAlphaAtBottom[x]`: the shadow edge of
column `x`, scanning from row `height − 1` upward (`none` plays the
role of the `-1` sentinel). -/
def shadowEdge (img : AlphaImg) (x : ℕ) : Option (ℕ × ℕ) :=
  if img.h = 0 then none
  else findShadowEdge (fun y => img.alpha x y) (img.h - 1)

/-- The fade alpha written `dy` rows below the shadow edge (lines
653–656): `round(baseAlpha * (1 - (dy/20)^2) * 0.7)`. -/
def fadeAlpha (base dy : ℕ) : ℕ :=
  (jround ((base : ℚ) * (1 - ((dy : ℚ) / 20) ^ 2) * 0.7)).toNat

/-- The fade loop reaches offset `dy` without hitting the
`newAlpha < 2` break: every offset up to and including `dy` has fade
alpha ≥ 2.  (The break test precedes the write at each offset.) -/
def fadeReaches (base dy : ℕ) : Bool :=
  (List.range dy).all fun i => 2 ≤ fadeAlpha base (i + 1)

/-- Alpha plane after step 2 of `softenShadowEdges` (lines 638–675):
per column, the downward fade extension (writing only where the
existing alpha is weaker than the fade value) and the 0.6× fade of the
edge pixel itself.  Each pixel is written at most once and columns are
independent, so the imperative loop is expressed pointwise. -/
def afterStep2 (img : AlphaImg) : ℕ → ℕ → ℕ := fun x y =>
  match shadowEdge img x with
  | none => img.alpha x y
  | some (bY, base) =>
    if img.h ≤ bY + 2 then img.alpha x y
    else if base < 10 then img.alpha x y
    else if y = bY then (jround ((base : ℚ) * 0.6)).toNat
    else if bY < y ∧ y ≤ bY + 20 ∧ y < img.h ∧ fadeReaches base (y - bY) = true ∧
        img.alpha x y < fadeAlpha base (y - bY) then
      fadeAlpha base (y - bY)
    else img.alpha x y

/-- Alpha plane after step 3, the horizontal blur (lines 678–712):
pixels with shadow-range alpha and 8 ≤ x < w − 8 receive the rounded
average of the shadow-range alphas among their 17 horizontal
neighbours. -/
def afterBlur (img : AlphaImg) (f : ℕ → ℕ → ℕ) : ℕ → ℕ → ℕ := fun x y =>
  if 8 ≤ x ∧ x + 8 < img.w then
    let a := f x y
    if a = 0 ∨ 200 ≤ a then a
    else
      let ns := (((List.range 17).map fun i => f (x + i - 8) y).filter
        fun v => 0 < v ∧ v < 200)
      if ns.length = 0 then a
      else (jround ((ns.sum : ℚ) / ns.length)).toNat
  else f x y

/-- Alpha plane after step 4, the border feathering (lines 715–730):
every nonzero-alpha pixel within 8 of an image edge is scaled linearly
toward 0 at the boundary. -/
def afterFeather (img : AlphaImg) (f : ℕ → ℕ → ℕ) : ℕ → ℕ → ℕ := fun x y =>
  let a := f x y
  if a = 0 then a
  else
    let dist := min (min x (img.w - 1 - x)) (min y (img.h - 1 - y))
    if dist < 8 then (jround ((a : ℚ) * ((dist : ℚ) / 8))).toNat else a

/-- `async function softenShadowEdges(buffer)` (lines 600–735): the
alpha plane of the returned buffer. -/
def softenShadowEdges (img : AlphaImg) : ℕ → ℕ → ℕ :=
  afterFeather img (afterBlur img (afterStep2 img))

/-- C5 (amended): the fade-extension writes of `softenShadowEdges` are
extension-only — below a column's shadow edge, a pixel whose existing
alpha is at least its computed fade value is left unchanged by the
extension step, and no pixel below the edge ever has its alpha
decreased by that step. -/
theorem fade_extension_only (img : AlphaImg) (x y bY base : ℕ)
    (hedge : shadowEdge img x = some (bY, base)) (htarget : bY < y) :
    (fadeAlpha base (y - bY) ≤ img.alpha x y →
      afterStep2 img x y = img.alpha x y) ∧
    img.alpha x y ≤ afterStep2 img x y := by
  unfold afterStep2
  rw [hedge]
  dsimp only
  have hne : ¬(y = bY) := by omega
  by_cases h1 : img.h ≤ bY + 2
  · rw [if_pos h1]
    exact ⟨fun _ => rfl, le_refl _⟩
  · by_cases h2 : base < 10
    · rw [if_neg h1, if_pos h2]
      exact ⟨fun _ => rfl, le_refl _⟩
    · by_cases h3 : bY < y ∧ y ≤ bY + 20 ∧ y < img.h ∧
        fadeReaches base (y - bY) = true ∧ img.alpha x y < fadeAlpha base (y - bY)
      · rw [if_neg h1, if_neg h2, if_neg hne, if_pos h3]
        exact ⟨fun hle => absurd h3.2.2.2.2 (by omega), le_of_lt h3.2.2.2.2⟩
      · rw [if_neg h1, if_neg h2, if_neg hne, if_neg h3]
        exact ⟨fun _ => rfl, le_refl _⟩

/-- 3×30 buffer refuting C5 as stated for the whole function: column 1
has a shadow edge of alpha 100 at row 10, and the pixel directly below
it holds alpha 210 — stronger than its computed fade value — yet the
final border feathering scales it down. -/
def softenCexImg : AlphaImg :=
  ⟨3, 30, fun x y =>
    if x = 1 ∧ y = 10 then 100 else if x = 1 ∧ y = 11 then 210 else 0⟩

theorem fadeAlpha_100_1 : fadeAlpha 100 1 = 70 := by
  norm_num [fadeAlpha, jround]
  decide

/-- C5 counterexample: on `softenCexImg`, pixel (1, 11) has alpha 210,
stronger than its computed fade value 70, yet the full
`softenShadowEdges` lowers it (to 26, via the border feathering) — the
whole function is not extension-only. -/
theorem soften_decreases_strong_pixel_cex :
    shadowEdge softenCexImg 1 = some (10, 100) ∧
    fadeAlpha 100 (11 - 10) < softenCexImg.alpha 1 11 ∧
    softenShadowEdges softenCexImg 1 11 < softenCexImg.alpha 1 11 := by
  have hedge : shadowEdge softenCexImg 1 = some (10, 100) := by decide
  have hstep2 : afterStep2 softenCexImg 1 11 = 210 := by
    have hcond : ¬((10 : ℕ) < 11 ∧ 11 ≤ 10 + 20 ∧ 11 < softenCexImg.h ∧
        fadeReaches 100 (11 - 10) = true ∧
        softenCexImg.alpha 1 11 < fadeAlpha 100 (11 - 10)) := by
      intro hc
      have h5 := hc.2.2.2.2
      rw [show (11 - 10 : ℕ) = 1 from rfl, fadeAlpha_100_1,
        show softenCexImg.alpha 1 11 = 210 from rfl] at h5
      omega
    simp only [afterStep2]
    rw [hedge]
    dsimp only
    rw [if_neg (by decide), if_neg (by decide), if_neg (by decide), if_neg hcond]
    decide
  have hblur : afterBlur softenCexImg (afterStep2 softenCexImg) 1 11 = 210 := by
    simp only [afterBlur]
    rw [if_neg (by decide : ¬((8 : ℕ) ≤ 1 ∧ 1 + 8 < softenCexImg.w))]
    exact hstep2
  have hfinal : softenShadowEdges softenCexImg 1 11 = 26 := by
    simp only [softenShadowEdges, afterFeather]
    rw [hblur]
    rw [if_neg (by decide : ¬(210 = 0))]
    rw [if_pos (by decide)]
    have h : jround (((210 : ℕ) : ℚ) *
        (((min (min 1 (softenCexImg.w - 1 - 1))
          (min 11 (softenCexImg.h - 1 - 11)) : ℕ) : ℚ) / 8)) = 26 := by
      norm_num [jround, softenCexImg]
    rw [h]
    rfl
  refine ⟨hedge, ?_, ?_⟩
  · rw [show (11 - 10 : ℕ) = 1 from rfl, fadeAlpha_100_1]
    decide
  · rw [hfinal]
    decide

/-- Witness for the amended C5 theorem on the same buffer: the pixel of
alpha 210 below the edge, whose fade value is 70, is untouched by the
extension step. -/
theorem fade_extension_only_witness :
    afterStep2 softenCexImg 1 11 = softenCexImg.alpha 1 11 :=
  (fade_extension_only softenCexImg 1 11 10 100 (by decide) (by decide)).1
    (by rw [show (11 - 10 : ℕ) = 1 from rfl, fadeAlpha_100_1]; decide)

/-! ## Placement and scale solver (`compositeImage`, lines 778–1005)

`compositeImage` first pads the (shadow-adjusted) cutout via
`padCutoutForShadows` (lines 738–776), offsets the analysis bounds into
padded-buffer coordinates, computes the shared canvas, and then runs
the exterior or the interior placement geometry.  The geometric part is
embedded below as a pure function of the analysis, the cutout
dimensions (`padCutoutForShadows` reads them from metadata; they equal
the analysed buffer's dimensions on every pipeline run), the target
width fraction `carScale` and the `isReprocessed` flag.  Every local of
the source becomes a `let`; the record exposes the locals the theorems
speak about. -/

structure ExteriorPlan where
  paddedWidth : ℚ
  paddedHeight : ℚ
  solidLeftP : ℚ
  solidRightP : ℚ
  solidBottomP : ℚ
  solidWidth : ℚ
  minPct : ℚ
  maxPct : ℚ
  canvasWidth : ℚ
  canvasHeight : ℚ
  widthPct : ℚ
  preClampScale : ℚ
  maxScaleToFit : ℚ
  scale : ℚ
  floorY : ℚ
  scaledWidth : ℚ
  scaledHeight : ℚ
  carLeft : ℚ
  carTop : ℚ
  minEdgeMargin : ℚ
  adjustedCarLeft : ℚ
  clampedLeft : ℚ
  clampedTop : ℚ

/-- Exterior branch of `compositeImage` (lines 795–893).  `floorY` and
`floorYClamped` in the source are the same expression and are embedded
once.  (JS division by zero yields Infinity, which would drop the
corresponding term from `Math.min`; the embedding's theorems assume the
denominators positive, which holds for every real cutout.) -/
def exteriorPlacement (a : SubjectAnalysis) (cutW cutH : ℕ)
    (carScale : ℚ) (isReprocessed : Bool) : ExteriorPlan :=
  let padTop := jroundQ ((cutH : ℚ) * 0.03)
  let padBottom := jroundQ ((cutH : ℚ) * 0.10)
  let padLeft := jroundQ ((cutW : ℚ) * 0.03)
  let padRight := jroundQ ((cutW : ℚ) * 0.03)
  let paddedWidth := (cutW : ℚ) + padLeft + padRight
  let paddedHeight := (cutH : ℚ) + padTop + padBottom
  let solidMinX := (a.solid.minX : ℚ) + padLeft
  let solidMaxX := (a.solid.maxX : ℚ) + padLeft
  let solidMaxY := (a.solid.maxY : ℚ) + padTop
  let solidWidth := max 1 (solidMaxX - solidMinX + 1)
  let solidCenterX := solidMinX + solidWidth / 2
  let solidBottom := solidMaxY
  let targetPct := carScale
  let minPct := max 0.50 (targetPct - 0.12)
  let maxPct := if isReprocessed then 0.98 else min 0.95 (targetPct + 0.08)
  let baseCanvasWidth := if isReprocessed then jroundQ (solidWidth / targetPct)
    else max 1920 (jroundQ (solidWidth / targetPct))
  let canvasWidth := baseCanvasWidth
  let canvasHeight := jroundQ (canvasWidth * (9 / 16))
  let widthPct := solidWidth / canvasWidth
  let preScale := if widthPct < minPct then minPct / widthPct
    else if maxPct < widthPct then maxPct / widthPct
    else 1
  let floorY := jroundQ (canvasHeight * 0.84)
  let maxScaleToFit := min (canvasWidth / paddedWidth)
    (min (canvasHeight / paddedHeight) (floorY / solidBottom))
  let scale := min preScale maxScaleToFit
  let scaledWidth := jroundQ (paddedWidth * scale)
  let scaledHeight := jroundQ (paddedHeight * scale)
  let scaledSolidBottom := solidBottom * scale
  let scaledSolidCenterX := solidCenterX * scale
  let canvasCenterX := canvasWidth / 2
  let carLeft := jroundQ (canvasCenterX - scaledSolidCenterX)
  let carTop := jroundQ (floorY - scaledSolidBottom)
  let minEdgeMargin := jroundQ (canvasWidth * 0.05)
  let scaledSolidLeft := carLeft + solidMinX * scale
  let scaledSolidRight := carLeft + solidMaxX * scale
  let adjustedCarLeft :=
    if scaledSolidLeft < minEdgeMargin then
      carLeft + (minEdgeMargin - scaledSolidLeft)
    else if canvasWidth - minEdgeMargin < scaledSolidRight then
      carLeft - (scaledSolidRight - (canvasWidth - minEdgeMargin))
    else carLeft
  let clampedLeft := max 0 (min adjustedCarLeft (canvasWidth - scaledWidth))
  let clampedTop := max 0 (min carTop (canvasHeight - scaledHeight))
  { paddedWidth := paddedWidth, paddedHeight := paddedHeight
    solidLeftP := solidMinX, solidRightP := solidMaxX
    solidBottomP := solidBottom, solidWidth := solidWidth
    minPct := minPct, maxPct := maxPct
    canvasWidth := canvasWidth, canvasHeight := canvasHeight
    widthPct := widthPct, preClampScale := preScale
    maxScaleToFit := maxScaleToFit, scale := scale, floorY := floorY
    scaledWidth := scaledWidth, scaledHeight := scaledHeight
    carLeft := carLeft, carTop := carTop, minEdgeMargin := minEdgeMargin
    adjustedCarLeft := adjustedCarLeft
    clampedLeft := clampedLeft, clampedTop := clampedTop }

structure InteriorPlan where
  canvasWidth : ℚ
  canvasHeight : ℚ
  scale : ℚ
  scaledWidth : ℚ
  scaledHeight : ℚ
  carLeft : ℚ
  carTop : ℚ
  clampedLeft : ℚ
  clampedTop : ℚ

/-- Interior branch of `compositeImage` (lines 968–1005): fit the soft
box into 90% of the canvas, clamp the scale to [0.1, 2], and center the
soft box on the canvas. -/
def interiorPlacement (a : SubjectAnalysis) (cutW cutH : ℕ)
    (carScale : ℚ) (isReprocessed : Bool) : InteriorPlan :=
  let padTop := jroundQ ((cutH : ℚ) * 0.03)
  let padBottom := jroundQ ((cutH : ℚ) * 0.10)
  let padLeft := jroundQ ((cutW : ℚ) * 0.03)
  let padRight := jroundQ ((cutW : ℚ) * 0.03)
  let paddedWidth := (cutW : ℚ) + padLeft + padRight
  let paddedHeight := (cutH : ℚ) + padTop + padBottom
  let softMinX := (a.soft.minX : ℚ) + padLeft
  let softMaxX := (a.soft.maxX : ℚ) + padLeft
  let softMinY := (a.soft.minY : ℚ) + padTop
  let softMaxY := (a.soft.maxY : ℚ) + padTop
  let solidMinX := (a.solid.minX : ℚ) + padLeft
  let solidMaxX := (a.solid.maxX : ℚ) + padLeft
  let solidWidth := max 1 (solidMaxX - solidMinX + 1)
  let softWidth := max 1 (softMaxX - softMinX + 1)
  let softHeight := max 1 (softMaxY - softMinY + 1)
  let softCenterX := softMinX + softWidth / 2
  let softCenterY := softMinY + softHeight / 2
  let targetPct := carScale
  let baseCanvasWidth := if isReprocessed then jroundQ (solidWidth / targetPct)
    else max 1920 (jroundQ (solidWidth / targetPct))
  let canvasWidth := baseCanvasWidth
  let canvasHeight := jroundQ (canvasWidth * (9 / 16))
  let availableWidth := canvasWidth * 0.9
  let availableHeight := canvasHeight * 0.9
  let scaleToFit := min (availableWidth / softWidth) (availableHeight / softHeight)
  let maxScaleToFit := min (canvasWidth / paddedWidth) (canvasHeight / paddedHeight)
  let scale := clampQ (min scaleToFit maxScaleToFit) 0.1 2
  let scaledWidth := jroundQ (paddedWidth * scale)
  let scaledHeight := jroundQ (paddedHeight * scale)
  let scaledSoftCenterX := softCenterX * scale
  let scaledSoftCenterY := softCenterY * scale
  let canvasCenterX := canvasWidth / 2
  let canvasCenterY := canvasHeight / 2
  let carLeft := jroundQ (canvasCenterX - scaledSoftCenterX)
  let carTop := jroundQ (canvasCenterY - scaledSoftCenterY)
  let clampedLeft := max 0 (min carLeft (canvasWidth - scaledWidth))
  let clampedTop := max 0 (min carTop (canvasHeight - scaledHeight))
  { canvasWidth := canvasWidth, canvasHeight := canvasHeight, scale := scale
    scaledWidth := scaledWidth, scaledHeight := scaledHeight
    carLeft := carLeft, carTop := carTop
    clampedLeft := clampedLeft, clampedTop := clampedTop }

/-- Reprocessing detection in `POST` (line 1219): the upload is exactly
1920×1080. -/
def isReprocessedUpload (originalWidth originalHeight : ℕ) : Bool :=
  decide (originalWidth = 1920 ∧ originalHeight = 1080)

/-- Target-fraction selection in `POST` (lines 1262–1277): a
reprocessed upload replaces the caller's setting with the cutout's
solid width as a fraction of the original width, clamped to
[0.60, 0.95]. -/
def effectiveCarScale (isRe : Bool) (settingScale : ℚ) (cutSolid : Bounds)
    (originalWidth : ℚ) : ℚ :=
  if isRe then
    let carSolidWidth := max 1 ((cutSolid.maxX : ℚ) - (cutSolid.minX : ℚ) + 1)
    min 0.95 (max 0.60 (carSolidWidth / originalWidth))
  else settingScale

/-! ### Definitional bridges for the exterior plan fields -/

theorem ep_scale_eq (a : SubjectAnalysis) (cutW cutH : ℕ) (cs : ℚ) (isRe : Bool) :
    (exteriorPlacement a cutW cutH cs isRe).scale =
      min (exteriorPlacement a cutW cutH cs isRe).preClampScale
        (exteriorPlacement a cutW cutH cs isRe).maxScaleToFit := rfl

theorem ep_maxScaleToFit_eq (a : SubjectAnalysis) (cutW cutH : ℕ) (cs : ℚ) (isRe : Bool) :
    (exteriorPlacement a cutW cutH cs isRe).maxScaleToFit =
      min ((exteriorPlacement a cutW cutH cs isRe).canvasWidth /
          (exteriorPlacement a cutW cutH cs isRe).paddedWidth)
        (min ((exteriorPlacement a cutW cutH cs isRe).canvasHeight /
            (exteriorPlacement a cutW cutH cs isRe).paddedHeight)
          ((exteriorPlacement a cutW cutH cs isRe).floorY /
            (exteriorPlacement a cutW cutH cs isRe).solidBottomP)) := rfl

theorem ep_carTop_eq (a : SubjectAnalysis) (cutW cutH : ℕ) (cs : ℚ) (isRe : Bool) :
    (exteriorPlacement a cutW cutH cs isRe).carTop =
      jroundQ ((exteriorPlacement a cutW cutH cs isRe).floorY -
        (exteriorPlacement a cutW cutH cs isRe).solidBottomP *
          (exteriorPlacement a cutW cutH cs isRe).scale) := rfl

theorem ep_clampedTop_eq (a : SubjectAnalysis) (cutW cutH : ℕ) (cs : ℚ) (isRe : Bool) :
    (exteriorPlacement a cutW cutH cs isRe).clampedTop =
      max 0 (min (exteriorPlacement a cutW cutH cs isRe).carTop
        ((exteriorPlacement a cutW cutH cs isRe).canvasHeight -
          (exteriorPlacement a cutW cutH cs isRe).scaledHeight)) := rfl

theorem ep_floorY_eq (a : SubjectAnalysis) (cutW cutH : ℕ) (cs : ℚ) (isRe : Bool) :
    (exteriorPlacement a cutW cutH cs isRe).floorY =
      jroundQ ((exteriorPlacement a cutW cutH cs isRe).canvasHeight * 0.84) := rfl

theorem ep_minEdgeMargin_eq (a : SubjectAnalysis) (cutW cutH : ℕ) (cs : ℚ) (isRe : Bool) :
    (exteriorPlacement a cutW cutH cs isRe).minEdgeMargin =
      jroundQ ((exteriorPlacement a cutW cutH cs isRe).canvasWidth * 0.05) := rfl

theorem ep_adjustedCarLeft_eq (a : SubjectAnalysis) (cutW cutH : ℕ) (cs : ℚ) (isRe : Bool) :
    (exteriorPlacement a cutW cutH cs isRe).adjustedCarLeft =
      (if (exteriorPlacement a cutW cutH cs isRe).carLeft +
            (exteriorPlacement a cutW cutH cs isRe).solidLeftP *
              (exteriorPlacement a cutW cutH cs isRe).scale <
          (exteriorPlacement a cutW cutH cs isRe).minEdgeMargin then
        (exteriorPlacement a cutW cutH cs isRe).carLeft +
          ((exteriorPlacement a cutW cutH cs isRe).minEdgeMargin -
            ((exteriorPlacement a cutW cutH cs isRe).carLeft +
              (exteriorPlacement a cutW cutH cs isRe).solidLeftP *
                (exteriorPlacement a cutW cutH cs isRe).scale))
      else if (exteriorPlacement a cutW cutH cs isRe).canvasWidth -
            (exteriorPlacement a cutW cutH cs isRe).minEdgeMargin <
          (exteriorPlacement a cutW cutH cs isRe).carLeft +
            (exteriorPlacement a cutW cutH cs isRe).solidRightP *
              (exteriorPlacement a cutW cutH cs isRe).scale then
        (exteriorPlacement a cutW cutH cs isRe).carLeft -
          (((exteriorPlacement a cutW cutH cs isRe).carLeft +
              (exteriorPlacement a cutW cutH cs isRe).solidRightP *
                (exteriorPlacement a cutW cutH cs isRe).scale) -
            ((exteriorPlacement a cutW cutH cs isRe).canvasWidth -
              (exteriorPlacement a cutW cutH cs isRe).minEdgeMargin))
      else (exteriorPlacement a cutW cutH cs isRe).carLeft) := rfl

theorem ep_clampedLeft_eq (a : SubjectAnalysis) (cutW cutH : ℕ) (cs : ℚ) (isRe : Bool) :
    (exteriorPlacement a cutW cutH cs isRe).clampedLeft =
      max 0 (min (exteriorPlacement a cutW cutH cs isRe).adjustedCarLeft
        ((exteriorPlacement a cutW cutH cs isRe).canvasWidth -
          (exteriorPlacement a cutW cutH cs isRe).scaledWidth)) := rfl

theorem ep_canvasWidth_eq (a : SubjectAnalysis) (cutW cutH : ℕ) (cs : ℚ) (isRe : Bool) :
    (exteriorPlacement a cutW cutH cs isRe).canvasWidth =
      (if isRe then jroundQ ((exteriorPlacement a cutW cutH cs isRe).solidWidth / cs)
       else max 1920 (jroundQ ((exteriorPlacement a cutW cutH cs isRe).solidWidth / cs))) := rfl

theorem ep_solidWidth_eq (a : SubjectAnalysis) (cutW cutH : ℕ) (cs : ℚ) (isRe : Bool) :
    (exteriorPlacement a cutW cutH cs isRe).solidWidth =
      max 1 ((a.solid.maxX : ℚ) - (a.solid.minX : ℚ) + 1) := by
  show max 1 (((a.solid.maxX : ℚ) + jroundQ ((cutW : ℚ) * 0.03)) -
      ((a.solid.minX : ℚ) + jroundQ ((cutW : ℚ) * 0.03)) + 1) =
    max 1 ((a.solid.maxX : ℚ) - (a.solid.minX : ℚ) + 1)
  congr 1
  ring

/-- C1 (amended): in exterior mode, whenever the max-scale-to-fit clamp
does not reduce the scale, the solid bottom is positive, and the final
safety clamp does not alter the vertical offset
(carTop ≤ canvasHeight − scaledHeight), the final placement puts the
scaled solid-box bottom within 1 pixel of round(canvasHeight × 0.84). -/
theorem exterior_floor_placement (a : SubjectAnalysis) (cutW cutH : ℕ)
    (carScale : ℚ) (isRe : Bool)
    (hsb : 0 < (exteriorPlacement a cutW cutH carScale isRe).solidBottomP)
    (_hnoclamp : (exteriorPlacement a cutW cutH carScale isRe).preClampScale ≤
      (exteriorPlacement a cutW cutH carScale isRe).maxScaleToFit)
    (hvert : (exteriorPlacement a cutW cutH carScale isRe).carTop ≤
      (exteriorPlacement a cutW cutH carScale isRe).canvasHeight -
        (exteriorPlacement a cutW cutH carScale isRe).scaledHeight) :
    |(exteriorPlacement a cutW cutH carScale isRe).clampedTop +
        (exteriorPlacement a cutW cutH carScale isRe).solidBottomP *
          (exteriorPlacement a cutW cutH carScale isRe).scale -
        jroundQ ((exteriorPlacement a cutW cutH carScale isRe).canvasHeight * 0.84)| ≤ 1 := by
  have hscale := ep_scale_eq a cutW cutH carScale isRe
  have hmax := ep_maxScaleToFit_eq a cutW cutH carScale isRe
  have hct := ep_carTop_eq a cutW cutH carScale isRe
  have hclt := ep_clampedTop_eq a cutW cutH carScale isRe
  have hfl := ep_floorY_eq a cutW cutH carScale isRe
  set P := exteriorPlacement a cutW cutH carScale isRe
  have hsle : P.scale ≤ P.floorY / P.solidBottomP := by
    rw [hscale, hmax]
    exact le_trans (min_le_right _ _)
      (le_trans (min_le_right _ _) (min_le_right _ _))
  have hs2 : P.scale * P.solidBottomP ≤ P.floorY := (le_div_iff₀ hsb).mp hsle
  have hq : 0 ≤ P.floorY - P.solidBottomP * P.scale := by
    rw [mul_comm P.scale P.solidBottomP] at hs2
    linarith
  have hct0 : 0 ≤ P.carTop := by
    rw [hct]
    exact jroundQ_nonneg hq
  have hclamp : P.clampedTop = P.carTop := by
    rw [hclt, min_eq_left hvert, max_eq_right hct0]
  rw [hclamp, hct, ← hfl]
  have habs := abs_jroundQ_sub_le (P.floorY - P.solidBottomP * P.scale)
  have heq : jroundQ (P.floorY - P.solidBottomP * P.scale) +
      P.solidBottomP * P.scale - P.floorY =
      jroundQ (P.floorY - P.solidBottomP * P.scale) -
        (P.floorY - P.solidBottomP * P.scale) := by ring
  rw [heq]
  exact le_trans habs (by norm_num)

/-- A wide, shallow cutout whose solid box hugs the top of the frame:
4000×1000 cutout, solid box columns 0–3599, rows 0–9. -/
def floorCexAnalysis : SubjectAnalysis :=
  { bufferWidth := 4000, bufferHeight := 1000, hasAlpha := true
    soft := ⟨0, 3599, 0, 9, true⟩, solid := ⟨0, 3599, 0, 9, true⟩
    softCoverage := 9/1000, solidCoverage := 9/1000, softWidthPct := 9/10
    softHeightPct := 1/100, bottomTouchRatio := 0, opaqueRatio := 9/1000 }

theorem floorCexAnalysis_plan_eval :
    exteriorPlacement floorCexAnalysis 4000 1000 (82/100) false =
      ⟨4240, 1130, 120, 3719, 39, 3600, 7/10, 9/10, 4390, 2469, 360/439, 1,
        439/424, 1, 2074, 4240, 1130, 275, 2035, 220, 275, 150, 1339⟩ := by
  norm_num [exteriorPlacement, floorCexAnalysis, jroundQ, jround]

/-- C1 counterexample: on `floorCexAnalysis` (exterior mode, scale not
reduced by the max-scale-to-fit clamp) the final [0, canvasHeight −
scaledHeight] safety clamp pulls the subject up, leaving the scaled
solid bottom 696 pixels above round(canvasHeight × 0.84). -/
theorem exterior_floor_cex :
    (exteriorPlacement floorCexAnalysis 4000 1000 (82/100) false).preClampScale ≤
      (exteriorPlacement floorCexAnalysis 4000 1000 (82/100) false).maxScaleToFit ∧
    1 < |(exteriorPlacement floorCexAnalysis 4000 1000 (82/100) false).clampedTop +
        (exteriorPlacement floorCexAnalysis 4000 1000 (82/100) false).solidBottomP *
          (exteriorPlacement floorCexAnalysis 4000 1000 (82/100) false).scale -
        jroundQ ((exteriorPlacement floorCexAnalysis 4000 1000 (82/100) false).canvasHeight
          * 0.84)| := by
  rw [floorCexAnalysis_plan_eval]
  norm_num [jroundQ, jround]

/-- A 1600×700 cutout with solid box columns 100–1400, rows 0–699:
nothing clamps, the solid bottom lands on the floor line. -/
def floorWitnessAnalysis : SubjectAnalysis :=
  { bufferWidth := 1600, bufferHeight := 700, hasAlpha := true
    soft := ⟨100, 1400, 0, 699, true⟩, solid := ⟨100, 1400, 0, 699, true⟩
    softCoverage := 1/2, solidCoverage := 1/2, softWidthPct := 8/10
    softHeightPct := 1, bottomTouchRatio := 1/2, opaqueRatio := 1/2 }

theorem floorWitnessAnalysis_plan_eval :
    exteriorPlacement floorWitnessAnalysis 1600 700 (82/100) false =
      ⟨1696, 791, 148, 1448, 720, 1301, 7/10, 9/10, 1920, 1080, 1301/1920,
        1344/1301, 60/53, 1344/1301, 907, 1752, 817, 135, 163, 96, 135,
        135, 163⟩ := by
  norm_num [exteriorPlacement, floorWitnessAnalysis, jroundQ, jround]

theorem exterior_floor_placement_witness :
    |(exteriorPlacement floorWitnessAnalysis 1600 700 (82/100) false).clampedTop +
        (exteriorPlacement floorWitnessAnalysis 1600 700 (82/100) false).solidBottomP *
          (exteriorPlacement floorWitnessAnalysis 1600 700 (82/100) false).scale -
        jroundQ ((exteriorPlacement floorWitnessAnalysis 1600 700 (82/100) false).canvasHeight
          * 0.84)| ≤ 1 :=
  exterior_floor_placement floorWitnessAnalysis 1600 700 (82/100) false
    (by rw [floorWitnessAnalysis_plan_eval]; norm_num)
    (by rw [floorWitnessAnalysis_plan_eval]; norm_num)
    (by rw [floorWitnessAnalysis_plan_eval]; norm_num)

/-- C2 (amended): in exterior mode, whenever the scaled solid box is no
wider than the canvas minus both margins and the final
[0, canvasWidth − scaledWidth] safety clamp does not move the adjusted
offset, the final placement keeps the scaled solid box at least
round(canvasWidth × 0.05) away from both side edges. -/
theorem exterior_margin_correction (a : SubjectAnalysis) (cutW cutH : ℕ)
    (carScale : ℚ) (isRe : Bool)
    (hfit : ((exteriorPlacement a cutW cutH carScale isRe).solidRightP -
        (exteriorPlacement a cutW cutH carScale isRe).solidLeftP) *
        (exteriorPlacement a cutW cutH carScale isRe).scale ≤
      (exteriorPlacement a cutW cutH carScale isRe).canvasWidth -
        2 * (exteriorPlacement a cutW cutH carScale isRe).minEdgeMargin)
    (hcl0 : 0 ≤ (exteriorPlacement a cutW cutH carScale isRe).adjustedCarLeft)
    (hcl1 : (exteriorPlacement a cutW cutH carScale isRe).adjustedCarLeft ≤
      (exteriorPlacement a cutW cutH carScale isRe).canvasWidth -
        (exteriorPlacement a cutW cutH carScale isRe).scaledWidth) :
    jroundQ ((exteriorPlacement a cutW cutH carScale isRe).canvasWidth * 0.05) ≤
      (exteriorPlacement a cutW cutH carScale isRe).clampedLeft +
        (exteriorPlacement a cutW cutH carScale isRe).solidLeftP *
          (exteriorPlacement a cutW cutH carScale isRe).scale ∧
    (exteriorPlacement a cutW cutH carScale isRe).clampedLeft +
        (exteriorPlacement a cutW cutH carScale isRe).solidRightP *
          (exteriorPlacement a cutW cutH carScale isRe).scale ≤
      (exteriorPlacement a cutW cutH carScale isRe).canvasWidth -
        jroundQ ((exteriorPlacement a cutW cutH carScale isRe).canvasWidth * 0.05) := by
  have hm := ep_minEdgeMargin_eq a cutW cutH carScale isRe
  have hadj := ep_adjustedCarLeft_eq a cutW cutH carScale isRe
  have hcleq := ep_clampedLeft_eq a cutW cutH carScale isRe
  set P := exteriorPlacement a cutW cutH carScale isRe
  have hcl : P.clampedLeft = P.adjustedCarLeft := by
    rw [hcleq, min_eq_left hcl1, max_eq_right hcl0]
  have hfit2 : P.solidRightP * P.scale - P.solidLeftP * P.scale ≤
      P.canvasWidth - 2 * P.minEdgeMargin := by linear_combination hfit
  rw [← hm, hcl, hadj]
  split_ifs with hA hB
  · constructor <;> linarith
  · constructor <;> linarith
  · push_neg at hA hB
    constructor <;> linarith

/-- A cutout that pads to exactly the canvas width with its solid box
near the left: 1812×600 cutout, solid box columns 0–1300, rows 0–500. -/
def marginCexAnalysis : SubjectAnalysis :=
  { bufferWidth := 1812, bufferHeight := 600, hasAlpha := true
    soft := ⟨0, 1300, 0, 500, true⟩, solid := ⟨0, 1300, 0, 500, true⟩
    softCoverage := 1/2, solidCoverage := 1/2, softWidthPct := 7/10
    softHeightPct := 8/10, bottomTouchRatio := 1/10, opaqueRatio := 1/2 }

theorem marginCexAnalysis_plan_eval :
    exteriorPlacement marginCexAnalysis 1812 600 (82/100) false =
      ⟨1920, 678, 54, 1354, 518, 1301, 7/10, 9/10, 1920, 1080, 1301/1920,
        1344/1301, 1, 1, 907, 1920, 678, 256, 389, 96, 256, 0, 389⟩ := by
  norm_num [exteriorPlacement, marginCexAnalysis, jroundQ, jround]

/-- C2 counterexample: on `marginCexAnalysis` the scaled solid box
(width 1301) is narrower than the canvas (1920), yet the final safety
clamp pushes the scaled padded buffer flush left, leaving the solid box
only 54 px from the left edge — inside the 96 px margin. -/
theorem exterior_margin_cex :
    ((exteriorPlacement marginCexAnalysis 1812 600 (82/100) false).solidRightP -
        (exteriorPlacement marginCexAnalysis 1812 600 (82/100) false).solidLeftP + 1) *
        (exteriorPlacement marginCexAnalysis 1812 600 (82/100) false).scale ≤
      (exteriorPlacement marginCexAnalysis 1812 600 (82/100) false).canvasWidth ∧
    (exteriorPlacement marginCexAnalysis 1812 600 (82/100) false).clampedLeft +
        (exteriorPlacement marginCexAnalysis 1812 600 (82/100) false).solidLeftP *
          (exteriorPlacement marginCexAnalysis 1812 600 (82/100) false).scale <
      jroundQ ((exteriorPlacement marginCexAnalysis 1812 600 (82/100) false).canvasWidth
        * 0.05) := by
  rw [marginCexAnalysis_plan_eval]
  norm_num [jroundQ, jround]

/-- A centered car on the same 1600×700 cutout geometry: solid box
columns 150–1450, rows 0–699; neither margin correction nor the final
clamp moves it. -/
def marginWitnessAnalysis : SubjectAnalysis :=
  { bufferWidth := 1600, bufferHeight := 700, hasAlpha := true
    soft := ⟨150, 1450, 0, 699, true⟩, solid := ⟨150, 1450, 0, 699, true⟩
    softCoverage := 1/2, solidCoverage := 1/2, softWidthPct := 8/10
    softHeightPct := 1, bottomTouchRatio := 1/2, opaqueRatio := 1/2 }

theorem marginWitnessAnalysis_plan_eval :
    exteriorPlacement marginWitnessAnalysis 1600 700 (82/100) false =
      ⟨1696, 791, 198, 1498, 720, 1301, 7/10, 9/10, 1920, 1080, 1301/1920,
        1344/1301, 60/53, 1344/1301, 907, 1752, 817, 83, 163, 96, 83,
        83, 163⟩ := by
  norm_num [exteriorPlacement, marginWitnessAnalysis, jroundQ, jround]

theorem exterior_margin_correction_witness :
    jroundQ ((exteriorPlacement marginWitnessAnalysis 1600 700 (82/100) false).canvasWidth
        * 0.05) ≤
      (exteriorPlacement marginWitnessAnalysis 1600 700 (82/100) false).clampedLeft +
        (exteriorPlacement marginWitnessAnalysis 1600 700 (82/100) false).solidLeftP *
          (exteriorPlacement marginWitnessAnalysis 1600 700 (82/100) false).scale ∧
    (exteriorPlacement marginWitnessAnalysis 1600 700 (82/100) false).clampedLeft +
        (exteriorPlacement marginWitnessAnalysis 1600 700 (82/100) false).solidRightP *
          (exteriorPlacement marginWitnessAnalysis 1600 700 (82/100) false).scale ≤
      (exteriorPlacement marginWitnessAnalysis 1600 700 (82/100) false).canvasWidth -
        jroundQ ((exteriorPlacement marginWitnessAnalysis 1600 700 (82/100) false).canvasWidth
          * 0.05) :=
  exterior_margin_correction marginWitnessAnalysis 1600 700 (82/100) false
    (by rw [marginWitnessAnalysis_plan_eval]; norm_num)
    (by rw [marginWitnessAnalysis_plan_eval]; norm_num)
    (by rw [marginWitnessAnalysis_plan_eval]; norm_num)

/-- C9: for every composite plan — exterior or interior, reprocessed or
not — the canvas dimensions satisfy
canvasHeight = round(canvasWidth × 9/16) exactly. -/
theorem canvas_aspect_ratio (a : SubjectAnalysis) (cutW cutH : ℕ)
    (cs : ℚ) (isRe : Bool) :
    (exteriorPlacement a cutW cutH cs isRe).canvasHeight =
      jroundQ ((exteriorPlacement a cutW cutH cs isRe).canvasWidth * (9 / 16)) ∧
    (interiorPlacement a cutW cutH cs isRe).canvasHeight =
      jroundQ ((interiorPlacement a cutW cutH cs isRe).canvasWidth * (9 / 16)) :=
  ⟨rfl, rfl⟩

/-- C6: a 1920×1080 upload is treated as reprocessed — the caller's
target fraction is replaced by clamp(cutout solid width / original
width, 0.60, 0.95) and the canvas width drops the 1920 floor; any other
upload keeps the caller's fraction and the floor. -/
theorem reprocessed_scale_and_canvas (a : SubjectAnalysis) (cutW cutH : ℕ)
    (settingScale : ℚ) (ow oh : ℕ) :
    ((ow = 1920 ∧ oh = 1080) →
      effectiveCarScale (isReprocessedUpload ow oh) settingScale a.solid (ow : ℚ) =
        min 0.95 (max 0.60
          (max 1 ((a.solid.maxX : ℚ) - (a.solid.minX : ℚ) + 1) / (ow : ℚ))) ∧
      (exteriorPlacement a cutW cutH
          (effectiveCarScale (isReprocessedUpload ow oh) settingScale a.solid (ow : ℚ))
          (isReprocessedUpload ow oh)).canvasWidth =
        jroundQ (max 1 ((a.solid.maxX : ℚ) - (a.solid.minX : ℚ) + 1) /
          effectiveCarScale (isReprocessedUpload ow oh) settingScale a.solid (ow : ℚ))) ∧
    (¬(ow = 1920 ∧ oh = 1080) →
      effectiveCarScale (isReprocessedUpload ow oh) settingScale a.solid (ow : ℚ) =
        settingScale ∧
      (exteriorPlacement a cutW cutH
          (effectiveCarScale (isReprocessedUpload ow oh) settingScale a.solid (ow : ℚ))
          (isReprocessedUpload ow oh)).canvasWidth =
        max 1920 (jroundQ (max 1 ((a.solid.maxX : ℚ) - (a.solid.minX : ℚ) + 1) /
          settingScale))) := by
  constructor
  · intro h
    have hflag : isReprocessedUpload ow oh = true := by
      simp [isReprocessedUpload, h.1, h.2]
    rw [hflag]
    have he : effectiveCarScale true settingScale a.solid (ow : ℚ) =
        min 0.95 (max 0.60
          (max 1 ((a.solid.maxX : ℚ) - (a.solid.minX : ℚ) + 1) / (ow : ℚ))) := rfl
    refine ⟨he, ?_⟩
    rw [ep_canvasWidth_eq, ep_solidWidth_eq]
    simp
  · intro h
    have hflag : isReprocessedUpload ow oh = false := by
      simp only [isReprocessedUpload, decide_eq_false_iff_not]
      exact h
    rw [hflag]
    have he : effectiveCarScale false settingScale a.solid (ow : ℚ) =
        settingScale := rfl
    refine ⟨he, ?_⟩
    rw [he, ep_canvasWidth_eq, ep_solidWidth_eq]
    simp

/-- Cutout analysis of a reprocessed 1920×1080 upload whose solid width
is 75% of the original frame (columns 100–1539 → width 1440). -/
def reproAnalysis : SubjectAnalysis :=
  { bufferWidth := 1600, bufferHeight := 900, hasAlpha := true
    soft := ⟨100, 1539, 0, 700, true⟩, solid := ⟨100, 1539, 0, 700, true⟩
    softCoverage := 1/2, solidCoverage := 1/2, softWidthPct := 9/10
    softHeightPct := 8/10, bottomTouchRatio := 1/2, opaqueRatio := 1/2 }

theorem reprocessed_scale_and_canvas_witness :
    effectiveCarScale (isReprocessedUpload 1920 1080) (82/100)
        reproAnalysis.solid ((1920 : ℕ) : ℚ) =
      min 0.95 (max 0.60
        (max 1 ((reproAnalysis.solid.maxX : ℚ) - (reproAnalysis.solid.minX : ℚ) + 1) /
          ((1920 : ℕ) : ℚ))) ∧
    (exteriorPlacement reproAnalysis 1600 900
        (effectiveCarScale (isReprocessedUpload 1920 1080) (82/100)
          reproAnalysis.solid ((1920 : ℕ) : ℚ))
        (isReprocessedUpload 1920 1080)).canvasWidth =
      jroundQ (max 1 ((reproAnalysis.solid.maxX : ℚ) - (reproAnalysis.solid.minX : ℚ) + 1) /
        effectiveCarScale (isReprocessedUpload 1920 1080) (82/100)
          reproAnalysis.solid ((1920 : ℕ) : ℚ)) :=
  (reprocessed_scale_and_canvas reproAnalysis 1600 900 (82/100) 1920 1080).1
    ⟨rfl, rfl⟩
